import Mathlib

/-!
# Verification of the riscv_vplic virtual PLIC device

Shallow embedding of `src/lib.rs`, `src/consts.rs` (constants) and the
interface of `src/utils.rs` of the `riscv_vplic` crate, together with
theorems settling the frozen claims about it.

Modelling conventions:
* `usize` arithmetic is modelled with `Nat` (the code never relies on
  wrap-around in reachable paths; where Rust subtraction could wrap, a
  comment at the definition explains the treatment).
* `bitmaps::Bitmap<1024>` is modelled as `Finset (Fin 1024)`; its `get`
  and `set` panic in Rust when the index is out of range, which is
  modelled by an `Except` error (`IndexOutOfBounds`).
* Rust `assert!` / `unimplemented!` aborts are modelled as `Except`
  errors (`InvalidWidth`, `InvalidContext`, `UnmappedRegister`): an
  errored operation produces no successor state.
* The hardware passthrough (`perform_mmio_read` / `perform_mmio_write`
  in `utils.rs`) is modelled by an oracle `hostVal : Nat → Nat` for read
  values plus a trace of `HostOp`s recording every hardware access.
* The guest interrupt-pending signal (the `hvip.vseip` bit manipulated
  via `riscv_h::register::hvip`) is modelled as an explicit `Bool`
  threaded through the handlers.
-/

set_option autoImplicit false

namespace RiscvVPlic

/-! ## Constants (src/consts.rs) -/

/-- Number of interrupt sources defined by PLIC 1.0.0 (includes source 0
for indexing convenience). -/
def PLIC_NUM_SOURCES : Nat := 1024

/-- Offset to priority register for interrupt source 0. -/
def PLIC_PRIORITY_OFFSET : Nat := 0x000000

/-- Offset to the first pending register word. -/
def PLIC_PENDING_OFFSET : Nat := 0x001000

/-- Offset to the enable bits for context 0. -/
def PLIC_ENABLE_OFFSET : Nat := 0x002000

/-- Stride between contexts in the enable region (in bytes). -/
def PLIC_ENABLE_STRIDE : Nat := 0x80

/-- Offset to the control registers (threshold and claim/complete) for
context 0. -/
def PLIC_CONTEXT_CTRL_OFFSET : Nat := 0x200000

/-- Stride between contexts in the control region (in bytes). -/
def PLIC_CONTEXT_STRIDE : Nat := 0x1000

/-- Offset within a context's control region to the threshold register. -/
def PLIC_CONTEXT_THRESHOLD_OFFSET : Nat := 0x00

/-- Offset within a context's control region to the claim/complete
register. -/
def PLIC_CONTEXT_CLAIM_COMPLETE_OFFSET : Nat := 0x04

instance : NeZero PLIC_NUM_SOURCES := ⟨by decide⟩

/-! ## Basic types -/

/-- `axaddrspace::device::AccessWidth`. -/
inductive AccessWidth where
  | Byte
  | Word
  | Dword
  | Qword
deriving DecidableEq

/-- Faults of the device model.  In the Rust code `InvalidWidth`,
`InvalidContext` and `UnmappedRegister` are `assert!` / `unimplemented!`
aborts, and `IndexOutOfBounds` is the panic of the `bitmaps` crate when
`get`/`set` receives an index outside the bitmap universe. -/
inductive PlicFault where
  | InvalidWidth
  | InvalidContext
  | UnmappedRegister
  | IndexOutOfBounds
deriving DecidableEq

/-- A hardware access performed through `perform_mmio_read` /
`perform_mmio_write` (src/utils.rs). -/
inductive HostOp where
  | read (addr : Nat) (width : AccessWidth)
  | write (addr : Nat) (width : AccessWidth) (val : Nat)
deriving DecidableEq

instance {ε α : Type} [DecidableEq ε] [DecidableEq α] : DecidableEq (Except ε α) := by
  intro a b
  cases a <;> cases b
  case error.error e f =>
    exact if h : e = f then .isTrue (by rw [h]) else .isFalse (by simp [h])
  case error.ok e x => exact .isFalse (by simp)
  case ok.error x e => exact .isFalse (by simp)
  case ok.ok x y =>
    exact if h : x = y then .isTrue (by rw [h]) else .isFalse (by simp [h])

/-- The `bitmaps::Bitmap<{ PLIC_NUM_SOURCES }>` universe, modelled as a
finite set of source ids. -/
abbrev IrqSet := Finset (Fin PLIC_NUM_SOURCES)

/-- `Bitmap::get`: panics (modelled as an error) when the index is not
below the bitmap size. -/
def bmGet (s : IrqSet) (i : Nat) : Except PlicFault Bool :=
  if h : i < PLIC_NUM_SOURCES then .ok (⟨i, h⟩ ∈ s) else .error .IndexOutOfBounds

/-- `Bitmap::set`: panics (modelled as an error) when the index is not
below the bitmap size. -/
def bmSet (s : IrqSet) (i : Nat) (b : Bool) : Except PlicFault IrqSet :=
  if h : i < PLIC_NUM_SOURCES then
    .ok (if b then insert ⟨i, h⟩ s else s.erase ⟨i, h⟩)
  else .error .IndexOutOfBounds

/-- `Bitmap::first_index`: the numerically smallest member, if any. -/
def firstIndex (s : IrqSet) : Option Nat :=
  if h : s.Nonempty then some (s.min' h).val else none

/-! ## Device state (struct VPlicGlobal, src/lib.rs) -/

/-- The `VPlicGlobal` struct.  Addresses are `Nat`; the three `Mutex`ed
bitmaps become plain fields (the handlers are modelled as whole-state
transformers). -/
structure VPlicGlobal where
  addr : Nat
  size : Nat
  contexts_num : Nat
  assigned_irqs : IrqSet
  pending_irqs : IrqSet
  active_irqs : IrqSet
  host_plic_addr : Nat
deriving DecidableEq

/-- `VPlicGlobal::new`.  `size` is an `Option` as in the source
(`size.expect(..)` panics on `None`, modelled as construction failure);
the range `assert!` becomes the `if`.  On success all three bitmaps are
empty and `host_plic_addr` mirrors the guest address. -/
def VPlicGlobal.new (addr : Nat) (size : Option Nat) (contexts_num : Nat) :
    Option VPlicGlobal :=
  let addr_end := addr + contexts_num * PLIC_CONTEXT_STRIDE
    + PLIC_CONTEXT_CTRL_OFFSET + PLIC_CONTEXT_CLAIM_COMPLETE_OFFSET
  match size with
  | none => none
  | some size =>
    if addr + size > addr_end then
      some { addr := addr, size := size, contexts_num := contexts_num,
             assigned_irqs := ∅, pending_irqs := ∅, active_irqs := ∅,
             host_plic_addr := addr }
    else none

/-- Result of a successful `handle_read`: returned value, updated device
state, updated guest interrupt-pending signal, hardware accesses made. -/
structure ReadOut where
  val : Nat
  dev : VPlicGlobal
  vseip : Bool
  hostOps : List HostOp
deriving DecidableEq

/-- Result of a successful `handle_write`. -/
structure WriteOut where
  dev : VPlicGlobal
  vseip : Bool
  hostOps : List HostOp
deriving DecidableEq

/-! ## The MMIO handlers (impl BaseDeviceOps for VPlicGlobal) -/

/-- The pending-region read loop body of `handle_read` (lib.rs lines
94–102): builds a 32-bit word from 32 consecutive `Bitmap::get`s
starting at `bit_index_start`. -/
def pendingReadWord (p : IrqSet) (bit_index_start : Nat) :
    Except PlicFault Nat :=
  (List.range 32).foldlM (fun v i =>
    match bmGet p (bit_index_start + i) with
    | .error e => .error e
    | .ok b => .ok (if b then v ||| (1 <<< i) else v)) 0

/-- The pending-region write loop of `handle_write` (lib.rs lines
158–168): for every bit i set in `val`, set source `reg_index * 32 + i`
pending. -/
def pendingInject (p : IrqSet) (reg_index : Nat) (val : Nat) :
    Except PlicFault IrqSet :=
  (List.range 32).foldlM (fun acc i =>
    if val &&& (1 <<< i) ≠ 0 then bmSet acc (reg_index * 32 + i) true
    else .ok acc) p

/-- `handle_read` (lib.rs lines 76–136).

The region dispatch mirrors the Rust `match` on `reg` arm by arm.  In
the pending arm the source computes `reg - PLIC_PENDING_OFFSET / 4`:
division binds tighter than subtraction in Rust exactly as in Lean, so
the buggy `reg - 0x400` is reproduced verbatim.  In the claim/complete
arm the Rust guard is `reg >= CTRL && (reg - CTRL - CLAIM) % STRIDE == 0`
with wrapping `usize` subtraction; for the only offsets where the
subtraction would wrap (CTRL ≤ reg < CTRL + CLAIM) the wrapped remainder
is nonzero, so the guard is equivalent to the non-wrapping form
`CTRL + CLAIM ≤ reg ∧ (reg - CTRL - CLAIM) % STRIDE = 0` used here. -/
def handle_read (d : VPlicGlobal) (vseip : Bool) (hostVal : Nat → Nat)
    (addr : Nat) (width : AccessWidth) : Except PlicFault ReadOut :=
  if width ≠ AccessWidth.Dword then .error .InvalidWidth else
  let reg := addr - d.addr
  let host_addr := reg + d.host_plic_addr
  -- priority
  if reg < PLIC_PENDING_OFFSET then
    .ok ⟨hostVal host_addr, d, vseip, [.read host_addr width]⟩
  -- pending
  else if reg < PLIC_ENABLE_OFFSET then
    let reg_index := reg - PLIC_PENDING_OFFSET / 4
    let bit_index_start := reg_index * 32
    match pendingReadWord d.pending_irqs bit_index_start with
    | .error e => .error e
    | .ok val => .ok ⟨val, d, vseip, []⟩
  -- enable
  else if reg < PLIC_CONTEXT_CTRL_OFFSET then
    .ok ⟨hostVal host_addr, d, vseip, [.read host_addr width]⟩
  -- threshold
  else if PLIC_CONTEXT_CTRL_OFFSET ≤ reg ∧
      (reg - PLIC_CONTEXT_CTRL_OFFSET) % PLIC_CONTEXT_STRIDE = 0 then
    .ok ⟨hostVal host_addr, d, vseip, [.read host_addr width]⟩
  -- claim/complete
  else if PLIC_CONTEXT_CTRL_OFFSET + PLIC_CONTEXT_CLAIM_COMPLETE_OFFSET ≤ reg ∧
      (reg - PLIC_CONTEXT_CTRL_OFFSET - PLIC_CONTEXT_CLAIM_COMPLETE_OFFSET)
        % PLIC_CONTEXT_STRIDE = 0 then
    let context_id :=
      (reg - PLIC_CONTEXT_CTRL_OFFSET - PLIC_CONTEXT_CLAIM_COMPLETE_OFFSET)
        / PLIC_CONTEXT_STRIDE
    if ¬ context_id < d.contexts_num then .error .InvalidContext else
    match firstIndex d.pending_irqs with
    | none => .ok ⟨0, d, vseip, []⟩
    | some irq_id =>
      match bmSet d.pending_irqs irq_id false, bmSet d.active_irqs irq_id true with
      | .ok p, .ok a =>
        .ok ⟨irq_id, { d with pending_irqs := p, active_irqs := a }, vseip, []⟩
      | .error e, _ => .error e
      | .ok _, .error e => .error e
  else .error .UnmappedRegister

/-- `handle_write` (lib.rs lines 138–208).  Same dispatch notes as
`handle_read`.  The pending arm truncates the written value to 32 bits
(`val as u32`) and is additive; it asserts the guest signal when the
resulting pending set is non-empty.  The claim/complete arm deasserts
the guest signal when the pending set is empty, clears the written id's
active bit and forwards the write to the host PLIC. -/
def handle_write (d : VPlicGlobal) (vseip : Bool)
    (addr : Nat) (width : AccessWidth) (val : Nat) :
    Except PlicFault WriteOut :=
  if width ≠ AccessWidth.Dword then .error .InvalidWidth else
  let reg := addr - d.addr
  let host_addr := reg + d.host_plic_addr
  -- priority
  if reg < PLIC_PENDING_OFFSET then
    .ok ⟨d, vseip, [.write host_addr width val]⟩
  -- pending (injection side-channel)
  else if reg < PLIC_ENABLE_OFFSET then
    let reg_index := (reg - PLIC_PENDING_OFFSET) / 4
    match pendingInject d.pending_irqs reg_index (val % 2 ^ 32) with
    | .error e => .error e
    | .ok p =>
      let vseip' := if ¬ p = ∅ then true else vseip
      .ok ⟨{ d with pending_irqs := p }, vseip', []⟩
  -- enable
  else if reg < PLIC_CONTEXT_CTRL_OFFSET then
    .ok ⟨d, vseip, [.write host_addr width val]⟩
  -- threshold
  else if PLIC_CONTEXT_CTRL_OFFSET ≤ reg ∧
      (reg - PLIC_CONTEXT_CTRL_OFFSET) % PLIC_CONTEXT_STRIDE = 0 then
    .ok ⟨d, vseip, [.write host_addr width val]⟩
  -- claim/complete
  else if PLIC_CONTEXT_CTRL_OFFSET + PLIC_CONTEXT_CLAIM_COMPLETE_OFFSET ≤ reg ∧
      (reg - PLIC_CONTEXT_CTRL_OFFSET - PLIC_CONTEXT_CLAIM_COMPLETE_OFFSET)
        % PLIC_CONTEXT_STRIDE = 0 then
    let context_id :=
      (reg - PLIC_CONTEXT_CTRL_OFFSET - PLIC_CONTEXT_CLAIM_COMPLETE_OFFSET)
        / PLIC_CONTEXT_STRIDE
    if ¬ context_id < d.contexts_num then .error .InvalidContext else
    let irq_id := val
    let vseip' := if d.pending_irqs = ∅ then false else vseip
    match bmSet d.active_irqs irq_id false with
    | .error e => .error e
    | .ok a => .ok ⟨{ d with active_irqs := a }, vseip', [.write host_addr width irq_id]⟩
  else .error .UnmappedRegister

/-- Byte offset of context `ctx`'s claim/complete register. -/
def claimRegOffset (ctx : Nat) : Nat :=
  PLIC_CONTEXT_CTRL_OFFSET + PLIC_CONTEXT_CLAIM_COMPLETE_OFFSET
    + ctx * PLIC_CONTEXT_STRIDE

/-! ## Basic lemmas about the bitmap model -/

theorem bmSet_lt {s : IrqSet} {i : Nat} (h : i < PLIC_NUM_SOURCES) (b : Bool) :
    bmSet s i b = .ok (if b then insert ⟨i, h⟩ s else s.erase ⟨i, h⟩) := by
  rw [bmSet, dif_pos h]

theorem bmSet_oob {s : IrqSet} {i : Nat} (h : ¬ i < PLIC_NUM_SOURCES) (b : Bool) :
    bmSet s i b = .error .IndexOutOfBounds := by
  rw [bmSet, dif_neg h]

theorem bmGet_oob {s : IrqSet} {i : Nat} (h : ¬ i < PLIC_NUM_SOURCES) :
    bmGet s i = .error .IndexOutOfBounds := by
  rw [bmGet, dif_neg h]

theorem firstIndex_eq_none {s : IrqSet} : firstIndex s = none ↔ s = ∅ := by
  rw [firstIndex]
  split
  · rename_i h
    simp only [reduceCtorEq, false_iff]
    intro he
    exact absurd (he ▸ h) (by simp)
  · rename_i h
    simp only [true_iff]
    exact Finset.not_nonempty_iff_eq_empty.mp h

theorem firstIndex_eq_some {s : IrqSet} {m : Nat} (h : firstIndex s = some m) :
    ∃ hs : s.Nonempty, m = (s.min' hs).val := by
  rw [firstIndex] at h
  split at h
  · rename_i hs
    exact ⟨hs, (Option.some_inj.mp h).symm⟩
  · exact absurd h (by simp)

theorem firstIndex_of_nonempty {s : IrqSet} (hs : s.Nonempty) :
    firstIndex s = some (s.min' hs).val := by
  rw [firstIndex, dif_pos hs]

/-! ## The pending-region read always indexes out of bounds -/

theorem foldReadWord_oob (p : IrqSet) (start : Nat)
    (h : PLIC_NUM_SOURCES ≤ start) (l : List Nat) (hl : l ≠ []) (v : Nat) :
    l.foldlM (fun v i =>
      (match bmGet p (start + i) with
      | .error e => .error e
      | .ok b => .ok (if b then v ||| (1 <<< i) else v) : Except PlicFault Nat)) v
    = .error .IndexOutOfBounds := by
  cases l with
  | nil => exact absurd rfl hl
  | cons a as =>
    rw [List.foldlM_cons]
    rw [bmGet_oob (by omega)]
    rfl

theorem pendingReadWord_oob (p : IrqSet) (start : Nat)
    (h : PLIC_NUM_SOURCES ≤ start) :
    pendingReadWord p start = .error .IndexOutOfBounds := by
  rw [pendingReadWord]
  exact foldReadWord_oob p start h (List.range 32) (by decide) 0

/-! ## Characterization of the pending-injection loop -/

theorem foldInject_ok (ri v : Nat) (l : List Nat)
    (hl : ∀ i ∈ l, ri * 32 + i < PLIC_NUM_SOURCES) (p : IrqSet) :
    ∃ p', l.foldlM (fun acc i =>
        (if v &&& (1 <<< i) ≠ 0 then bmSet acc (ri * 32 + i) true
        else .ok acc : Except PlicFault IrqSet)) p = .ok p'
      ∧ ∀ j : Fin PLIC_NUM_SOURCES,
          (j ∈ p' ↔ j ∈ p ∨ ∃ i ∈ l, v &&& (1 <<< i) ≠ 0 ∧ j.val = ri * 32 + i) := by
  induction l generalizing p with
  | nil => exact ⟨p, rfl, by simp⟩
  | cons a as ih =>
    have ha : ri * 32 + a < PLIC_NUM_SOURCES := hl a (List.mem_cons_self a as)
    have has : ∀ i ∈ as, ri * 32 + i < PLIC_NUM_SOURCES :=
      fun i hi => hl i (List.mem_cons_of_mem a hi)
    by_cases hb : v &&& (1 <<< a) ≠ 0
    · obtain ⟨p', hfold, hmem⟩ := ih has (insert ⟨ri * 32 + a, ha⟩ p)
      refine ⟨p', ?_, ?_⟩
      · rw [List.foldlM_cons, if_pos hb, bmSet_lt ha]
        exact hfold
      · intro j
        rw [hmem j, Finset.mem_insert]
        constructor
        · rintro ((hj | hj) | ⟨i, hi, hbi, hji⟩)
          · exact Or.inr ⟨a, List.mem_cons_self a as, hb, by rw [hj]⟩
          · exact Or.inl hj
          · exact Or.inr ⟨i, List.mem_cons_of_mem a hi, hbi, hji⟩
        · rintro (hj | ⟨i, hi, hbi, hji⟩)
          · exact Or.inl (Or.inr hj)
          · rcases List.mem_cons.mp hi with hia | hias
            · exact Or.inl (Or.inl (Fin.ext (by rw [hji, hia])))
            · exact Or.inr ⟨i, hias, hbi, hji⟩
    · obtain ⟨p', hfold, hmem⟩ := ih has p
      refine ⟨p', ?_, ?_⟩
      · rw [List.foldlM_cons, if_neg hb]
        exact hfold
      · intro j
        rw [hmem j]
        constructor
        · rintro (hj | ⟨i, hi, hbi, hji⟩)
          · exact Or.inl hj
          · exact Or.inr ⟨i, List.mem_cons_of_mem a hi, hbi, hji⟩
        · rintro (hj | ⟨i, hi, hbi, hji⟩)
          · exact Or.inl hj
          · rcases List.mem_cons.mp hi with hia | hias
            · exact absurd (hia ▸ hbi) hb
            · exact Or.inr ⟨i, hias, hbi, hji⟩

theorem pendingInject_ok (p : IrqSet) (ri v : Nat) (hri : ri < 32) :
    ∃ p', pendingInject p ri v = .ok p'
      ∧ ∀ j : Fin PLIC_NUM_SOURCES,
          (j ∈ p' ↔ j ∈ p ∨ ∃ i < 32, v &&& (1 <<< i) ≠ 0 ∧ j.val = ri * 32 + i) := by
  obtain ⟨p', hfold, hmem⟩ := foldInject_ok ri v (List.range 32)
    (by
      intro i hi
      have := List.mem_range.mp hi
      simp only [PLIC_NUM_SOURCES]
      omega) p
  refine ⟨p', hfold, ?_⟩
  intro j
  rw [hmem j]
  constructor
  · rintro (hj | ⟨i, hi, hbi, hji⟩)
    · exact Or.inl hj
    · exact Or.inr ⟨i, List.mem_range.mp hi, hbi, hji⟩
  · rintro (hj | ⟨i, hi, hbi, hji⟩)
    · exact Or.inl hj
    · exact Or.inr ⟨i, List.mem_range.mpr hi, hbi, hji⟩

/-! ## Arithmetic facts about register offsets -/

theorem claimRegOffset_spec (ctx : Nat) :
    ¬ claimRegOffset ctx < PLIC_PENDING_OFFSET ∧
    ¬ claimRegOffset ctx < PLIC_ENABLE_OFFSET ∧
    ¬ claimRegOffset ctx < PLIC_CONTEXT_CTRL_OFFSET ∧
    ¬ (PLIC_CONTEXT_CTRL_OFFSET ≤ claimRegOffset ctx ∧
       (claimRegOffset ctx - PLIC_CONTEXT_CTRL_OFFSET) % PLIC_CONTEXT_STRIDE = 0) ∧
    (PLIC_CONTEXT_CTRL_OFFSET + PLIC_CONTEXT_CLAIM_COMPLETE_OFFSET ≤ claimRegOffset ctx ∧
       (claimRegOffset ctx - PLIC_CONTEXT_CTRL_OFFSET - PLIC_CONTEXT_CLAIM_COMPLETE_OFFSET)
         % PLIC_CONTEXT_STRIDE = 0) ∧
    (claimRegOffset ctx - PLIC_CONTEXT_CTRL_OFFSET - PLIC_CONTEXT_CLAIM_COMPLETE_OFFSET)
      / PLIC_CONTEXT_STRIDE = ctx := by
  simp only [claimRegOffset, PLIC_PENDING_OFFSET, PLIC_ENABLE_OFFSET,
    PLIC_CONTEXT_CTRL_OFFSET, PLIC_CONTEXT_STRIDE, PLIC_CONTEXT_CLAIM_COMPLETE_OFFSET]
  omega

/-! ## Dispatch lemmas: evaluating the handlers at each register kind -/

theorem handle_read_invalidWidth (d : VPlicGlobal) (v : Bool) (hv : Nat → Nat)
    (a : Nat) (w : AccessWidth) (h : w ≠ AccessWidth.Dword) :
    handle_read d v hv a w = .error .InvalidWidth := by
  unfold handle_read
  rw [if_pos h]

theorem handle_write_invalidWidth (d : VPlicGlobal) (v : Bool)
    (a : Nat) (w : AccessWidth) (val : Nat) (h : w ≠ AccessWidth.Dword) :
    handle_write d v a w val = .error .InvalidWidth := by
  unfold handle_write
  rw [if_pos h]

set_option maxRecDepth 8000 in
theorem handle_read_claimReg (d : VPlicGlobal) (v : Bool) (hv : Nat → Nat) (ctx : Nat) :
    handle_read d v hv (d.addr + claimRegOffset ctx) AccessWidth.Dword =
      (if ¬ ctx < d.contexts_num then .error .InvalidContext else
       match firstIndex d.pending_irqs with
       | none => .ok ⟨0, d, v, []⟩
       | some irq_id =>
         match bmSet d.pending_irqs irq_id false, bmSet d.active_irqs irq_id true with
         | .ok p, .ok a =>
           .ok ⟨irq_id, { d with pending_irqs := p, active_irqs := a }, v, []⟩
         | .error e, _ => .error e
         | .ok _, .error e => .error e) := by
  obtain ⟨h1, h2, h3, h4, h5, h6⟩ := claimRegOffset_spec ctx
  unfold handle_read
  rw [if_neg (by simp)]
  simp only [Nat.add_sub_cancel_left]
  rw [if_neg h1, if_neg h2, if_neg h3, if_neg h4, if_pos h5, h6]

set_option maxRecDepth 8000 in
theorem handle_write_claimReg (d : VPlicGlobal) (v : Bool) (ctx val : Nat) :
    handle_write d v (d.addr + claimRegOffset ctx) AccessWidth.Dword val =
      (if ¬ ctx < d.contexts_num then .error .InvalidContext else
       match bmSet d.active_irqs val false with
       | .error e => .error e
       | .ok a => .ok ⟨{ d with active_irqs := a },
           (if d.pending_irqs = ∅ then false else v),
           [.write (claimRegOffset ctx + d.host_plic_addr) AccessWidth.Dword val]⟩) := by
  obtain ⟨h1, h2, h3, h4, h5, h6⟩ := claimRegOffset_spec ctx
  unfold handle_write
  rw [if_neg (by simp)]
  simp only [Nat.add_sub_cancel_left]
  rw [if_neg h1, if_neg h2, if_neg h3, if_neg h4, if_pos h5, h6]

set_option maxRecDepth 8000 in
theorem handle_read_pendingReg (d : VPlicGlobal) (v : Bool) (hv : Nat → Nat)
    (r : Nat) (h1 : PLIC_PENDING_OFFSET ≤ r) (h2 : r < PLIC_ENABLE_OFFSET) :
    handle_read d v hv (d.addr + r) AccessWidth.Dword = .error .IndexOutOfBounds := by
  unfold handle_read
  rw [if_neg (by simp)]
  simp only [Nat.add_sub_cancel_left]
  rw [if_neg (by
      simp only [PLIC_PENDING_OFFSET] at h1 ⊢
      omega),
    if_pos h2]
  rw [pendingReadWord_oob d.pending_irqs _ (by
      simp only [PLIC_PENDING_OFFSET, PLIC_ENABLE_OFFSET, PLIC_NUM_SOURCES] at h1 h2 ⊢
      omega)]

set_option maxRecDepth 8000 in
theorem handle_write_pendingReg (d : VPlicGlobal) (v : Bool) (wi val : Nat)
    (h : wi < 1024) :
    handle_write d v (d.addr + (PLIC_PENDING_OFFSET + 4 * wi)) AccessWidth.Dword val =
      (match pendingInject d.pending_irqs wi (val % 2 ^ 32) with
       | .error e => .error e
       | .ok p => .ok ⟨{ d with pending_irqs := p },
           (if ¬ p = ∅ then true else v), []⟩) := by
  unfold handle_write
  rw [if_neg (by simp)]
  simp only [Nat.add_sub_cancel_left]
  rw [if_neg (by
      simp only [PLIC_PENDING_OFFSET]
      omega),
    if_pos (by
      simp only [PLIC_PENDING_OFFSET, PLIC_ENABLE_OFFSET]
      omega)]
  rw [show 4 * wi / 4 = wi by omega]


/-! ## The claim operation, specialized -/

theorem handle_read_claim_empty (d : VPlicGlobal) (v : Bool) (hv : Nat → Nat)
    (ctx : Nat) (hctx : ctx < d.contexts_num) (hp : d.pending_irqs = ∅) :
    handle_read d v hv (d.addr + claimRegOffset ctx) AccessWidth.Dword =
      .ok ⟨0, d, v, []⟩ := by
  rw [handle_read_claimReg, if_neg (not_not_intro hctx),
    firstIndex_eq_none.mpr hp]

theorem handle_read_claim_nonempty (d : VPlicGlobal) (v : Bool) (hv : Nat → Nat)
    (ctx : Nat) (hctx : ctx < d.contexts_num) (hp : d.pending_irqs.Nonempty) :
    handle_read d v hv (d.addr + claimRegOffset ctx) AccessWidth.Dword =
      .ok ⟨(d.pending_irqs.min' hp).val,
           { d with pending_irqs := d.pending_irqs.erase (d.pending_irqs.min' hp),
                    active_irqs := insert (d.pending_irqs.min' hp) d.active_irqs },
           v, []⟩ := by
  rw [handle_read_claimReg, if_neg (not_not_intro hctx), firstIndex_of_nonempty hp]
  split
  · rename_i h
    exact absurd h (by simp)
  · rename_i irq_id h
    obtain rfl : (d.pending_irqs.min' hp).val = irq_id := by
      exact Option.some_inj.mp h
    rw [bmSet_lt (d.pending_irqs.min' hp).isLt, bmSet_lt (d.pending_irqs.min' hp).isLt]
    rfl

/-- Bridge between the loop's `val & (1 << i) != 0` test and `Nat.testBit`. -/
theorem and_shiftLeft_ne_zero_iff (x i : Nat) :
    x &&& (1 <<< i) ≠ 0 ↔ x.testBit i := by
  rw [Nat.shiftLeft_eq, one_mul, Nat.and_two_pow]
  cases h : x.testBit i
  · simp [h]
  · simp [h, (Nat.two_pow_pos i).ne']

theorem mod32_testBit (x i : Nat) (h : i < 32) :
    (x % 2 ^ 32).testBit i = x.testBit i := by
  rw [Nat.testBit_mod_two_pow]
  simp [h]

/-! ## Sample devices used to instantiate witnesses -/

/-- A sample constructed device: base 0, size 0x300000, one context,
source 5 pending, source 7 active. -/
def sampleDev : VPlicGlobal :=
  { addr := 0, size := 0x300000, contexts_num := 1,
    assigned_irqs := ∅, pending_irqs := {5}, active_irqs := {7},
    host_plic_addr := 0 }

/-! ## Claim C7 -/

/-- C7: every access (read or write, any region) whose width is not
exactly 4 bytes is rejected as an `InvalidWidth` fault.  The width check
is the first statement of both handlers, so an errored access produces
no successor state, no hardware access and no signal change (errors
carry no `ReadOut`/`WriteOut`). -/
theorem invalid_width_rejected (d : VPlicGlobal) (v : Bool) (hv : Nat → Nat)
    (a val : Nat) (w : AccessWidth) (h : w ≠ AccessWidth.Dword) :
    handle_read d v hv a w = .error .InvalidWidth ∧
    handle_write d v a w val = .error .InvalidWidth :=
  ⟨handle_read_invalidWidth d v hv a w h, handle_write_invalidWidth d v a w val h⟩

/-- Witness for C7 at a 2-byte access to the claim/complete register. -/
theorem invalid_width_rejected_witness :
    AccessWidth.Word ≠ AccessWidth.Dword ∧
    (handle_read sampleDev true (fun _ => 0) (sampleDev.addr + claimRegOffset 0)
        AccessWidth.Word = .error .InvalidWidth ∧
     handle_write sampleDev true (sampleDev.addr + claimRegOffset 0)
        AccessWidth.Word 5 = .error .InvalidWidth) :=
  ⟨by decide, invalid_width_rejected sampleDev true (fun _ => 0)
    (sampleDev.addr + claimRegOffset 0) 5 AccessWidth.Word (by decide)⟩

/-! ## Claim C8 -/

/-- C8: a read of or write to a claim/complete register whose computed
context id is at least `contexts_num` is rejected as `InvalidContext`
(the assertion fires before any interrupt state is touched, so no state
changes). -/
theorem invalid_context_rejected (d : VPlicGlobal) (v : Bool) (hv : Nat → Nat)
    (ctx val : Nat) (h : d.contexts_num ≤ ctx) :
    handle_read d v hv (d.addr + claimRegOffset ctx) AccessWidth.Dword =
      .error .InvalidContext ∧
    handle_write d v (d.addr + claimRegOffset ctx) AccessWidth.Dword val =
      .error .InvalidContext := by
  rw [handle_read_claimReg, handle_write_claimReg, if_pos (by omega),
    if_pos (by omega)]
  exact ⟨rfl, rfl⟩

/-- Witness for C8 at context id equal to `contexts_num`. -/
theorem invalid_context_rejected_witness :
    sampleDev.contexts_num ≤ 1 ∧
    (handle_read sampleDev true (fun _ => 0) (sampleDev.addr + claimRegOffset 1)
        AccessWidth.Dword = .error .InvalidContext ∧
     handle_write sampleDev true (sampleDev.addr + claimRegOffset 1)
        AccessWidth.Dword 5 = .error .InvalidContext) :=
  ⟨by decide, invalid_context_rejected sampleDev true (fun _ => 0) 1 5 (by decide)⟩

/-! ## Claim C9 -/

/-- Fields of a successfully constructed device (shared helper). -/
theorem new_ok_fields (a s c : Nat) (d : VPlicGlobal)
    (h : VPlicGlobal.new a (some s) c = some d) :
    d.assigned_irqs = ∅ ∧ d.pending_irqs = ∅ ∧ d.active_irqs = ∅ := by
  simp only [VPlicGlobal.new] at h
  split at h
  · cases h
    exact ⟨rfl, rfl, rfl⟩
  · cases h

/-- C9: construction succeeds exactly when base + size strictly exceeds
`addr_end = base + contexts_num * context_stride + control offsets`,
and a successfully constructed device has all three sets empty. -/
theorem new_range_check (addr size contexts_num : Nat) :
    ((VPlicGlobal.new addr (some size) contexts_num).isSome ↔
      addr + size > addr + contexts_num * PLIC_CONTEXT_STRIDE
        + PLIC_CONTEXT_CTRL_OFFSET + PLIC_CONTEXT_CLAIM_COMPLETE_OFFSET) ∧
    ∀ d, VPlicGlobal.new addr (some size) contexts_num = some d →
      d.assigned_irqs = ∅ ∧ d.pending_irqs = ∅ ∧ d.active_irqs = ∅ := by
  refine ⟨?_, fun d h => new_ok_fields addr size contexts_num d h⟩
  simp only [VPlicGlobal.new]
  split
  · rename_i hgt
    simpa using hgt
  · rename_i hgt
    simpa using hgt

/-- Witness for C9 at a concrete successful construction. -/
theorem new_range_check_witness :
    (VPlicGlobal.new 0 (some 0x300000) 1).isSome ↔
      0 + 0x300000 > 0 + 1 * PLIC_CONTEXT_STRIDE
        + PLIC_CONTEXT_CTRL_OFFSET + PLIC_CONTEXT_CLAIM_COMPLETE_OFFSET :=
  (new_range_check 0 0x300000 1).1

/-! ## Claim C10 -/

/-- C10: the claim/complete write path does not validate the written id:
for every value ≥ 1024 the active-bitmap update indexes out of bounds
(the `bitmaps` crate panics, modelled as `IndexOutOfBounds`), and for
every value < 1024 the update is the plain erase of that id. -/
theorem complete_write_val_bound (d : VPlicGlobal) (v : Bool) (ctx val : Nat)
    (hctx : ctx < d.contexts_num) :
    (PLIC_NUM_SOURCES ≤ val →
      handle_write d v (d.addr + claimRegOffset ctx) AccessWidth.Dword val =
        .error .IndexOutOfBounds) ∧
    (∀ hval : val < PLIC_NUM_SOURCES,
      handle_write d v (d.addr + claimRegOffset ctx) AccessWidth.Dword val =
        .ok ⟨{ d with active_irqs := d.active_irqs.erase ⟨val, hval⟩ },
             (if d.pending_irqs = ∅ then false else v),
             [.write (claimRegOffset ctx + d.host_plic_addr) AccessWidth.Dword val]⟩) := by
  constructor
  · intro hval
    rw [handle_write_claimReg, if_neg (not_not_intro hctx),
      bmSet_oob (by omega) false]
  · intro hval
    rw [handle_write_claimReg, if_neg (not_not_intro hctx), bmSet_lt hval]
    rfl

/-- Witness for C10 at value 1024 (and the in-bounds half at value 7). -/
theorem complete_write_val_bound_witness :
    0 < sampleDev.contexts_num ∧ PLIC_NUM_SOURCES ≤ 1024 ∧
    handle_write sampleDev true (sampleDev.addr + claimRegOffset 0)
      AccessWidth.Dword 1024 = .error .IndexOutOfBounds :=
  ⟨by decide, by decide,
    (complete_write_val_bound sampleDev true 0 1024 (by decide)).1 (by decide)⟩

/-! ## Claim C2 (code bug) -/

/-- C2 (code bug): every 4-byte read in the pending region aborts with an
out-of-bounds bitmap index instead of returning the pending word.  The
source computes `reg - PLIC_PENDING_OFFSET / 4` (= `reg - 0x400` since
division binds tighter than subtraction) where the write path uses
`(reg - PLIC_PENDING_OFFSET) / 4`, so the loop's first `Bitmap::get`
index is at least (0x1000 - 0x400) * 32 = 98304 ≥ 1024. -/
theorem pending_read_out_of_bounds (d : VPlicGlobal) (v : Bool) (hv : Nat → Nat)
    (w : Nat) (hw : w < 1024) :
    handle_read d v hv (d.addr + (PLIC_PENDING_OFFSET + 4 * w)) AccessWidth.Dword =
      .error .IndexOutOfBounds :=
  handle_read_pendingReg d v hv _
    (by simp only [PLIC_PENDING_OFFSET]; omega)
    (by simp only [PLIC_PENDING_OFFSET, PLIC_ENABLE_OFFSET]; omega)

/-- Witness for C2 at pending word 0. -/
theorem pending_read_out_of_bounds_witness :
    (0:Nat) < 1024 ∧
    handle_read sampleDev true (fun _ => 0)
      (sampleDev.addr + (PLIC_PENDING_OFFSET + 4 * 0)) AccessWidth.Dword =
      .error .IndexOutOfBounds :=
  ⟨by decide, pending_read_out_of_bounds sampleDev true (fun _ => 0) 0 (by decide)⟩

/-! ## Claim C4 -/

/-- C4: a 4-byte claim/complete write of an in-range id with a valid
context deasserts the guest signal exactly when the pending set is empty
at the time of the write (leaving it as-is, hence still asserted, when
pending is non-empty), clears the id's active membership, and forwards
the id as a write to the hardware at the mirrored host address
(register offset + host controller base).  The in-range hypothesis
`val < 1024` is required by the unchecked bitmap update (see the
out-of-bounds analysis of the same path). -/
theorem complete_write_spec (d : VPlicGlobal) (v : Bool) (ctx val : Nat)
    (hctx : ctx < d.contexts_num) (hval : val < PLIC_NUM_SOURCES) :
    handle_write d v (d.addr + claimRegOffset ctx) AccessWidth.Dword val =
      .ok ⟨{ d with active_irqs := d.active_irqs.erase ⟨val, hval⟩ },
           (if d.pending_irqs = ∅ then false else v),
           [.write (claimRegOffset ctx + d.host_plic_addr) AccessWidth.Dword val]⟩ ∧
    (d.pending_irqs = ∅ → (if d.pending_irqs = ∅ then false else v) = false) ∧
    (¬ d.pending_irqs = ∅ → (if d.pending_irqs = ∅ then false else v) = v) := by
  refine ⟨?_, fun h => if_pos h, fun h => if_neg h⟩
  rw [handle_write_claimReg, if_neg (not_not_intro hctx), bmSet_lt hval]
  rfl

/-- Witness for C4: completing id 7 on the sample device. -/
theorem complete_write_spec_witness :
    0 < sampleDev.contexts_num ∧ 7 < PLIC_NUM_SOURCES ∧
    handle_write sampleDev true (sampleDev.addr + claimRegOffset 0)
        AccessWidth.Dword 7 =
      .ok ⟨{ sampleDev with active_irqs := sampleDev.active_irqs.erase ⟨7, by decide⟩ },
           (if sampleDev.pending_irqs = ∅ then false else true),
           [.write (claimRegOffset 0 + sampleDev.host_plic_addr) AccessWidth.Dword 7]⟩ :=
  ⟨by decide, by decide,
    (complete_write_spec sampleDev true 0 7 (by decide) (by decide)).1⟩

/-! ## Claim C3 -/

/-- C3: a 4-byte write of value `val` to pending word `wi` (for word
indices addressing the source-id universe) succeeds; afterwards source
`wi*32+i` is pending for every bit `i` set in `val`, every previously
pending id is still pending (the path is additive), and if the pending
set is non-empty after the update the guest interrupt-pending signal is
asserted. -/
theorem pending_write_inject_spec (d : VPlicGlobal) (v : Bool) (wi val : Nat)
    (hwi : wi < 32) :
    ∃ wo, handle_write d v (d.addr + (PLIC_PENDING_OFFSET + 4 * wi))
        AccessWidth.Dword val = .ok wo ∧
      (∀ i, i < 32 → val.testBit i →
        ∀ h : wi * 32 + i < PLIC_NUM_SOURCES,
          (⟨wi * 32 + i, h⟩ : Fin PLIC_NUM_SOURCES) ∈ wo.dev.pending_irqs) ∧
      (∀ j ∈ d.pending_irqs, j ∈ wo.dev.pending_irqs) ∧
      (wo.dev.pending_irqs ≠ ∅ → wo.vseip = true) := by
  obtain ⟨p', hfold, hmem⟩ := pendingInject_ok d.pending_irqs wi (val % 2 ^ 32)
    (by omega)
  refine ⟨⟨{ d with pending_irqs := p' }, (if ¬ p' = ∅ then true else v), []⟩,
    ?_, ?_, ?_, ?_⟩
  · rw [handle_write_pendingReg d v wi val (by omega), hfold]
  · intro i hi hbit h
    exact (hmem _).mpr (Or.inr ⟨i, hi,
      (and_shiftLeft_ne_zero_iff _ i).mpr (by rw [mod32_testBit val i hi]; exact hbit),
      rfl⟩)
  · intro j hj
    exact (hmem j).mpr (Or.inl hj)
  · intro h
    exact if_pos h

/-- Witness for C3: injecting bit 1 of word 0 (source id 1). -/
theorem pending_write_inject_spec_witness :
    (0:Nat) < 32 ∧
    ∃ wo, handle_write sampleDev false (sampleDev.addr + (PLIC_PENDING_OFFSET + 4 * 0))
        AccessWidth.Dword 2 = .ok wo ∧
      (∀ i, i < 32 → (2:Nat).testBit i →
        ∀ h : 0 * 32 + i < PLIC_NUM_SOURCES,
          (⟨0 * 32 + i, h⟩ : Fin PLIC_NUM_SOURCES) ∈ wo.dev.pending_irqs) ∧
      (∀ j ∈ sampleDev.pending_irqs, j ∈ wo.dev.pending_irqs) ∧
      (wo.dev.pending_irqs ≠ ∅ → wo.vseip = true) :=
  ⟨by decide, pending_write_inject_spec sampleDev false 0 2 (by decide)⟩

/-! ## Claim C1 -/

/-- A device whose pending set is exactly {source 0}: reachable by a
pending-region write of value 1 to word 0, and the state on which the
claim read returns 0 with a non-empty pending set. -/
def devPend0 : VPlicGlobal :=
  { addr := 0, size := 0x300000, contexts_num := 1,
    assigned_irqs := ∅, pending_irqs := {0}, active_irqs := ∅,
    host_plic_addr := 0 }

/-- C1 counterexample: on a device with pending = {0}, the claim read
returns 0 although the pending set is non-empty, refuting "the result is
0 if and only if the pending set is empty" over all device states. -/
theorem claim_read_zero_with_nonempty_pending :
    handle_read devPend0 true (fun _ => 0) (devPend0.addr + claimRegOffset 0)
        AccessWidth.Dword =
      .ok ⟨0, { devPend0 with pending_irqs := ∅, active_irqs := {0} }, true, []⟩ ∧
    devPend0.pending_irqs ≠ ∅ := by
  constructor
  · decide
  · decide

/-- C1 (amended): for a valid context, if the pending set is empty the
claim read returns 0 and changes nothing; otherwise it returns the
numerically smallest pending id, moves it from pending to active, and
changes nothing else; and provided source id 0 is not pending, the
result is 0 if and only if the pending set is empty. -/
theorem claim_read_spec (d : VPlicGlobal) (v : Bool) (hv : Nat → Nat)
    (ctx : Nat) (hctx : ctx < d.contexts_num) :
    (d.pending_irqs = ∅ →
      handle_read d v hv (d.addr + claimRegOffset ctx) AccessWidth.Dword =
        .ok ⟨0, d, v, []⟩) ∧
    (∀ hp : d.pending_irqs.Nonempty,
      handle_read d v hv (d.addr + claimRegOffset ctx) AccessWidth.Dword =
        .ok ⟨(d.pending_irqs.min' hp).val,
             { d with pending_irqs := d.pending_irqs.erase (d.pending_irqs.min' hp),
                      active_irqs := insert (d.pending_irqs.min' hp) d.active_irqs },
             v, []⟩ ∧
      ∀ y ∈ d.pending_irqs, d.pending_irqs.min' hp ≤ y) ∧
    ((0 : Fin PLIC_NUM_SOURCES) ∉ d.pending_irqs →
      ∀ ro, handle_read d v hv (d.addr + claimRegOffset ctx) AccessWidth.Dword =
        .ok ro → (ro.val = 0 ↔ d.pending_irqs = ∅)) := by
  refine ⟨fun hp => handle_read_claim_empty d v hv ctx hctx hp,
    fun hp => ⟨handle_read_claim_nonempty d v hv ctx hctx hp,
      fun y hy => Finset.min'_le _ y hy⟩, ?_⟩
  intro h0 ro hro
  by_cases hp : d.pending_irqs = ∅
  · rw [handle_read_claim_empty d v hv ctx hctx hp] at hro
    cases hro
    simp [hp]
  · have hne : d.pending_irqs.Nonempty := Finset.nonempty_iff_ne_empty.mpr hp
    rw [(handle_read_claim_nonempty d v hv ctx hctx hne)] at hro
    cases hro
    constructor
    · intro hval
      exfalso
      apply h0
      have hmem := d.pending_irqs.min'_mem hne
      have : d.pending_irqs.min' hne = (0 : Fin PLIC_NUM_SOURCES) := Fin.ext hval
      rwa [this] at hmem
    · intro h
      exact absurd h hp

/-- Witness for C1 (amended) on the sample device (pending = {5}):
claiming returns 5 and moves it to active. -/
theorem claim_read_spec_witness :
    0 < sampleDev.contexts_num ∧
    (sampleDev.pending_irqs = ∅ →
      handle_read sampleDev true (fun _ => 0) (sampleDev.addr + claimRegOffset 0)
        AccessWidth.Dword = .ok ⟨0, sampleDev, true, []⟩) :=
  ⟨by decide, (claim_read_spec sampleDev true (fun _ => 0) 0 (by decide)).1⟩

/-! ## Reachability -/

/-- `d` is a freshly constructed device (some successful `new`).  Made
irreducible so that inductive predicates can mention it cheaply. -/
def InitDevice (a s c : Nat) (d : VPlicGlobal) : Prop :=
  VPlicGlobal.new a (some s) c = some d

theorem initDevice_def (a s c : Nat) (d : VPlicGlobal) :
    InitDevice a s c d ↔ VPlicGlobal.new a (some s) c = some d := Iff.rfl

attribute [irreducible] InitDevice

/-- One successful `handle_read` step. -/
def ReadStep (d : VPlicGlobal) (v : Bool) (hv : Nat → Nat) (a : Nat)
    (w : AccessWidth) (ro : ReadOut) : Prop :=
  handle_read d v hv a w = .ok ro

/-- One successful `handle_write` step. -/
def WriteStep (d : VPlicGlobal) (v : Bool) (a : Nat) (w : AccessWidth)
    (x : Nat) (wo : WriteOut) : Prop :=
  handle_write d v a w x = .ok wo

/-- States reachable from a freshly constructed device by any sequence
of (successful) `handle_read` / `handle_write` operations, together with
the guest interrupt-pending signal (initially deasserted). -/
inductive Reachable : VPlicGlobal → Bool → Prop where
  | init (a s c : Nat) (d : VPlicGlobal) :
      InitDevice a s c d → Reachable d false
  | read (d : VPlicGlobal) (v : Bool) (hv : Nat → Nat) (a : Nat)
      (w : AccessWidth) (ro : ReadOut) :
      Reachable d v → ReadStep d v hv a w ro →
      Reachable ro.dev ro.vseip
  | write (d : VPlicGlobal) (v : Bool) (a : Nat) (w : AccessWidth)
      (x : Nat) (wo : WriteOut) :
      Reachable d v → WriteStep d v a w x wo →
      Reachable wo.dev wo.vseip

/-- The freshly constructed device of `VPlicGlobal.new 0 (some 0x300000) 1`. -/
def freshDev : VPlicGlobal :=
  { addr := 0, size := 0x300000, contexts_num := 1,
    assigned_irqs := ∅, pending_irqs := ∅, active_irqs := ∅,
    host_plic_addr := 0 }

/-! ## Claim C5 (code bug) -/

/-- C5 (code bug evaluation): from a freshly constructed device, a single
pending-region write of value 1 to word 0 makes the reserved source id 0
a member of the pending set — the injection loop never masks bit 0,
contradicting the stated invariant that id 0 never appears in any set. -/
theorem inject_sets_source_zero_pending :
    Reachable { freshDev with pending_irqs := {0} } true ∧
    VPlicGlobal.new 0 (some 0x300000) 1 = some freshDev ∧
    handle_write freshDev false (freshDev.addr + PLIC_PENDING_OFFSET)
        AccessWidth.Dword 1 =
      .ok ⟨{ freshDev with pending_irqs := {0} }, true, []⟩ ∧
    (0 : Fin PLIC_NUM_SOURCES) ∈
      ({ freshDev with pending_irqs := {0} } : VPlicGlobal).pending_irqs := by
  have h0 : Reachable freshDev false :=
    .init 0 0x300000 1 freshDev ((initDevice_def 0 0x300000 1 freshDev).mpr (by decide))
  have h1 := Reachable.write freshDev false
    (freshDev.addr + PLIC_PENDING_OFFSET) AccessWidth.Dword 1
    ⟨{ freshDev with pending_irqs := {0} }, true, []⟩ h0 (by unfold WriteStep; decide)
  exact ⟨h1, by decide, by decide, by decide⟩

/-! ## Claim C6 counterexample -/

/-- Device after injecting source 5 into the fresh device. -/
def devP5 : VPlicGlobal := { freshDev with pending_irqs := {5} }

/-- Device after additionally claiming source 5. -/
def devA5 : VPlicGlobal := { freshDev with active_irqs := {5} }

/-- Device after re-injecting source 5 while it is still active. -/
def devPA5 : VPlicGlobal :=
  { freshDev with pending_irqs := {5}, active_irqs := {5} }

/-- C6 counterexample: the state devPA5 — where source 5 is simultaneously
pending and active — is reachable: inject 5, claim it, then inject 5
again while it is active. -/
theorem pending_and_active_overlap_reachable :
    Reachable devPA5 true ∧
    (5 : Fin PLIC_NUM_SOURCES) ∈ devPA5.pending_irqs ∧
    (5 : Fin PLIC_NUM_SOURCES) ∈ devPA5.active_irqs := by
  have h0 : Reachable freshDev false :=
    .init 0 0x300000 1 freshDev ((initDevice_def 0 0x300000 1 freshDev).mpr (by decide))
  have h1 : Reachable devP5 true :=
    Reachable.write freshDev false (freshDev.addr + PLIC_PENDING_OFFSET)
      AccessWidth.Dword 0x20 ⟨devP5, true, []⟩ h0 (by unfold WriteStep; decide)
  have h2 : Reachable devA5 true :=
    Reachable.read devP5 true (fun _ => 0) (devP5.addr + claimRegOffset 0)
      AccessWidth.Dword ⟨5, devA5, true, []⟩ h1 (by unfold ReadStep; decide)
  have h3 : Reachable devPA5 true :=
    Reachable.write devA5 true (devA5.addr + PLIC_PENDING_OFFSET)
      AccessWidth.Dword 0x20 ⟨devPA5, true, []⟩ h2 (by unfold WriteStep; decide)
  exact ⟨h3, by decide, by decide⟩

/-! ## Plumbing lemmas -/

theorem except_bind_ok {α β : Type} (x : α) (g : α → Except PlicFault β) :
    (Except.ok x >>= g) = g x := rfl

theorem except_bind_error {α β : Type} (e : PlicFault) (g : α → Except PlicFault β) :
    ((Except.error e : Except PlicFault α) >>= g) = Except.error e := rfl

theorem bmSet_true {s : IrqSet} {i : Nat} (h : i < PLIC_NUM_SOURCES) :
    bmSet s i true = .ok (insert ⟨i, h⟩ s) := by
  rw [bmSet, dif_pos h, if_pos rfl]

theorem bmSet_false {s : IrqSet} {i : Nat} (h : i < PLIC_NUM_SOURCES) :
    bmSet s i false = .ok (s.erase ⟨i, h⟩) := by
  rw [bmSet, dif_pos h, if_neg (by simp)]

/-- The injection loop only adds pending bits: every previously pending
id stays pending. -/
theorem foldInject_mono (ri v : Nat) (l : List Nat) (p p' : IrqSet)
    (h : l.foldlM (fun acc i =>
        (if v &&& (1 <<< i) ≠ 0 then bmSet acc (ri * 32 + i) true
        else .ok acc : Except PlicFault IrqSet)) p = .ok p') :
    ∀ j ∈ p, j ∈ p' := by
  induction l generalizing p with
  | nil =>
    rw [List.foldlM_nil] at h
    cases h
    exact fun j hj => hj
  | cons a as ih =>
    rw [List.foldlM_cons] at h
    by_cases hb : v &&& (1 <<< a) ≠ 0
    · rw [if_pos hb] at h
      by_cases hlt : ri * 32 + a < PLIC_NUM_SOURCES
      · rw [bmSet_true hlt, except_bind_ok] at h
        exact fun j hj => ih (insert ⟨ri * 32 + a, hlt⟩ p) h j
          (Finset.mem_insert_of_mem hj)
      · rw [bmSet_oob hlt, except_bind_error] at h
        exact absurd h (by simp)
    · rw [if_neg hb, except_bind_ok] at h
      exact ih p h

theorem pendingInject_mono (p : IrqSet) (ri v : Nat) (p' : IrqSet)
    (h : pendingInject p ri v = .ok p') : ∀ j ∈ p, j ∈ p' := by
  rw [pendingInject] at h
  exact foldInject_mono ri v (List.range 32) p p' h

set_option maxRecDepth 100000 in
/-- `handle_read` with the let-bindings substituted, for case analysis. -/
theorem handle_read_unfolded (d : VPlicGlobal) (v : Bool) (hv : Nat → Nat)
    (a : Nat) (w : AccessWidth) :
    handle_read d v hv a w =
      (if w ≠ AccessWidth.Dword then .error .InvalidWidth else
       if a - d.addr < PLIC_PENDING_OFFSET then
         .ok ⟨hv (a - d.addr + d.host_plic_addr), d, v,
              [.read (a - d.addr + d.host_plic_addr) w]⟩
       else if a - d.addr < PLIC_ENABLE_OFFSET then
         match pendingReadWord d.pending_irqs
             ((a - d.addr - PLIC_PENDING_OFFSET / 4) * 32) with
         | .error e => .error e
         | .ok val => .ok ⟨val, d, v, []⟩
       else if a - d.addr < PLIC_CONTEXT_CTRL_OFFSET then
         .ok ⟨hv (a - d.addr + d.host_plic_addr), d, v,
              [.read (a - d.addr + d.host_plic_addr) w]⟩
       else if PLIC_CONTEXT_CTRL_OFFSET ≤ a - d.addr ∧
           (a - d.addr - PLIC_CONTEXT_CTRL_OFFSET) % PLIC_CONTEXT_STRIDE = 0 then
         .ok ⟨hv (a - d.addr + d.host_plic_addr), d, v,
              [.read (a - d.addr + d.host_plic_addr) w]⟩
       else if PLIC_CONTEXT_CTRL_OFFSET + PLIC_CONTEXT_CLAIM_COMPLETE_OFFSET ≤ a - d.addr ∧
           (a - d.addr - PLIC_CONTEXT_CTRL_OFFSET - PLIC_CONTEXT_CLAIM_COMPLETE_OFFSET)
             % PLIC_CONTEXT_STRIDE = 0 then
         (if ¬ (a - d.addr - PLIC_CONTEXT_CTRL_OFFSET - PLIC_CONTEXT_CLAIM_COMPLETE_OFFSET)
               / PLIC_CONTEXT_STRIDE < d.contexts_num then .error .InvalidContext else
          match firstIndex d.pending_irqs with
          | none => .ok ⟨0, d, v, []⟩
          | some irq_id =>
            match bmSet d.pending_irqs irq_id false, bmSet d.active_irqs irq_id true with
            | .ok p, .ok aa =>
              .ok ⟨irq_id, { d with pending_irqs := p, active_irqs := aa }, v, []⟩
            | .error e, _ => .error e
            | .ok _, .error e => .error e)
       else .error .UnmappedRegister) := rfl

set_option maxRecDepth 100000 in
/-- `handle_write` with the let-bindings substituted, for case analysis. -/
theorem handle_write_unfolded (d : VPlicGlobal) (v : Bool) (a : Nat)
    (w : AccessWidth) (x : Nat) :
    handle_write d v a w x =
      (if w ≠ AccessWidth.Dword then .error .InvalidWidth else
       if a - d.addr < PLIC_PENDING_OFFSET then
         .ok ⟨d, v, [.write (a - d.addr + d.host_plic_addr) w x]⟩
       else if a - d.addr < PLIC_ENABLE_OFFSET then
         match pendingInject d.pending_irqs ((a - d.addr - PLIC_PENDING_OFFSET) / 4)
             (x % 2 ^ 32) with
         | .error e => .error e
         | .ok p =>
           .ok ⟨{ d with pending_irqs := p }, (if ¬ p = ∅ then true else v), []⟩
       else if a - d.addr < PLIC_CONTEXT_CTRL_OFFSET then
         .ok ⟨d, v, [.write (a - d.addr + d.host_plic_addr) w x]⟩
       else if PLIC_CONTEXT_CTRL_OFFSET ≤ a - d.addr ∧
           (a - d.addr - PLIC_CONTEXT_CTRL_OFFSET) % PLIC_CONTEXT_STRIDE = 0 then
         .ok ⟨d, v, [.write (a - d.addr + d.host_plic_addr) w x]⟩
       else if PLIC_CONTEXT_CTRL_OFFSET + PLIC_CONTEXT_CLAIM_COMPLETE_OFFSET ≤ a - d.addr ∧
           (a - d.addr - PLIC_CONTEXT_CTRL_OFFSET - PLIC_CONTEXT_CLAIM_COMPLETE_OFFSET)
             % PLIC_CONTEXT_STRIDE = 0 then
         (if ¬ (a - d.addr - PLIC_CONTEXT_CTRL_OFFSET - PLIC_CONTEXT_CLAIM_COMPLETE_OFFSET)
               / PLIC_CONTEXT_STRIDE < d.contexts_num then .error .InvalidContext else
          match bmSet d.active_irqs x false with
          | .error e => .error e
          | .ok aa => .ok ⟨{ d with active_irqs := aa },
              (if d.pending_irqs = ∅ then false else v),
              [.write (a - d.addr + d.host_plic_addr) w x]⟩)
       else .error .UnmappedRegister) := rfl

/-- Case analysis of a successful read: either the interrupt state is
untouched, or the read was a claim that moved the least pending id from
pending to active. -/
theorem read_dev_cases (d : VPlicGlobal) (v : Bool) (hv : Nat → Nat)
    (a : Nat) (w : AccessWidth) (ro : ReadOut)
    (hok : handle_read d v hv a w = .ok ro) :
    ro.dev = d ∨
    ∃ hp : d.pending_irqs.Nonempty,
      ro.dev = { d with
        pending_irqs := d.pending_irqs.erase (d.pending_irqs.min' hp),
        active_irqs := insert (d.pending_irqs.min' hp) d.active_irqs } := by
  rw [handle_read_unfolded] at hok
  split at hok
  · exact absurd hok (by simp)
  split at hok
  · cases Except.ok.inj hok
    exact Or.inl rfl
  split at hok
  · rename_i hge hlt
    rw [pendingReadWord_oob d.pending_irqs _ (by
        simp only [PLIC_PENDING_OFFSET, PLIC_NUM_SOURCES] at hge ⊢
        omega)] at hok
    exact absurd hok (by simp)
  split at hok
  · cases Except.ok.inj hok
    exact Or.inl rfl
  split at hok
  · cases Except.ok.inj hok
    exact Or.inl rfl
  split at hok
  · split at hok
    · exact absurd hok (by simp)
    · split at hok
      · cases Except.ok.inj hok
        exact Or.inl rfl
      · rename_i irq_id hfi
        obtain ⟨hp, rfl⟩ := firstIndex_eq_some hfi
        have hlt := (d.pending_irqs.min' hp).isLt
        split at hok
        · rename_i pp aa heq1 heq2
          rw [bmSet_false hlt] at heq1
          rw [bmSet_true hlt] at heq2
          cases Except.ok.inj heq1
          cases Except.ok.inj heq2
          cases Except.ok.inj hok
          refine Or.inr ⟨hp, ?_⟩
          rw [Fin.eta]
        · rename_i e rest heq1
          rw [bmSet_false hlt] at heq1
          exact absurd heq1 (by simp)
        · rename_i rest e heq2
          rw [bmSet_true hlt] at heq2
          exact absurd heq2 (by simp)
  · exact absurd hok (by simp)

/-- Case analysis of a successful write: either the interrupt state is
untouched, or the write was a pending injection (active untouched,
pending grows), or it was a completion (pending untouched, one id erased
from active). -/
theorem write_dev_cases (d : VPlicGlobal) (v : Bool) (a : Nat)
    (w : AccessWidth) (x : Nat) (wo : WriteOut)
    (hok : handle_write d v a w x = .ok wo) :
    wo.dev = d ∨
    (wo.dev.active_irqs = d.active_irqs ∧
      ∀ j ∈ d.pending_irqs, j ∈ wo.dev.pending_irqs) ∨
    (wo.dev.pending_irqs = d.pending_irqs ∧
      ∃ y : Fin PLIC_NUM_SOURCES, wo.dev.active_irqs = d.active_irqs.erase y) := by
  rw [handle_write_unfolded] at hok
  split at hok
  · exact absurd hok (by simp)
  split at hok
  · cases Except.ok.inj hok
    exact Or.inl rfl
  split at hok
  · rename_i hge hlt
    split at hok
    · exact absurd hok (by simp)
    · rename_i p' hinj
      cases Except.ok.inj hok
      exact Or.inr (Or.inl ⟨rfl, pendingInject_mono _ _ _ _ hinj⟩)
  split at hok
  · cases Except.ok.inj hok
    exact Or.inl rfl
  split at hok
  · cases Except.ok.inj hok
    exact Or.inl rfl
  split at hok
  · split at hok
    · exact absurd hok (by simp)
    · split at hok
      · exact absurd hok (by simp)
      · rename_i aa heq
        by_cases hx : x < PLIC_NUM_SOURCES
        · rw [bmSet_false hx] at heq
          cases Except.ok.inj heq
          cases Except.ok.inj hok
          exact Or.inr (Or.inr ⟨rfl, ⟨x, hx⟩, rfl⟩)
        · rw [bmSet_oob hx] at heq
          exact absurd heq (by simp)
  · exact absurd hok (by simp)

/-- Reachability restricted to runs whose pending-region injections never
name a currently active source: in every write step, any id newly made
pending was not active before the step. -/
inductive ReachableNoActiveInject : VPlicGlobal → Bool → Prop where
  | init (a s c : Nat) (d : VPlicGlobal) :
      InitDevice a s c d → ReachableNoActiveInject d false
  | read (d : VPlicGlobal) (v : Bool) (hv : Nat → Nat) (a : Nat)
      (w : AccessWidth) (ro : ReadOut) :
      ReachableNoActiveInject d v → ReadStep d v hv a w ro →
      ReachableNoActiveInject ro.dev ro.vseip
  | write (d : VPlicGlobal) (v : Bool) (a : Nat) (w : AccessWidth)
      (x : Nat) (wo : WriteOut) :
      ReachableNoActiveInject d v → WriteStep d v a w x wo →
      (∀ j : Fin PLIC_NUM_SOURCES,
        j ∈ wo.dev.pending_irqs → j ∉ d.pending_irqs → j ∉ d.active_irqs) →
      ReachableNoActiveInject wo.dev wo.vseip

/-- C6 (amended): in every state reachable from a fresh device by runs
that never re-inject a currently active id, no source id is a member of
both the pending set and the active set.  (Unrestricted runs violate
this: re-injecting an active id puts it into both sets.) -/
theorem pending_active_disjoint (d : VPlicGlobal) (v : Bool)
    (h : ReachableNoActiveInject d v) :
    ∀ j : Fin PLIC_NUM_SOURCES,
      ¬ (j ∈ d.pending_irqs ∧ j ∈ d.active_irqs) := by
  induction h with
  | init a s c d hnew =>
    obtain ⟨-, hpend, hact⟩ :=
      new_ok_fields a s c d ((initDevice_def a s c d).mp hnew)
    intro j hj
    rw [hpend] at hj
    exact absurd hj.1 (Finset.not_mem_empty j)
  | read d v hv a w ro hr hok ih =>
    rcases read_dev_cases d v hv a w ro hok with hdev | ⟨hp, hdev⟩
    · rw [hdev]
      exact ih
    · rw [hdev]
      intro j hj
      obtain ⟨hjp, hja⟩ := hj
      rw [Finset.mem_erase] at hjp
      rcases Finset.mem_insert.mp hja with hj5 | hja'
      · exact hjp.1 hj5
      · exact ih j ⟨hjp.2, hja'⟩
  | write d v a w x wo hr hok hside ih =>
    rcases write_dev_cases d v a w x wo hok with
      hdev | ⟨hact, hmono⟩ | ⟨hpend, y, hact⟩
    · rw [hdev]
      exact ih
    · intro j hj
      obtain ⟨hjp, hja⟩ := hj
      rw [hact] at hja
      by_cases hjp0 : j ∈ d.pending_irqs
      · exact ih j ⟨hjp0, hja⟩
      · exact hside j hjp hjp0 hja
    · intro j hj
      obtain ⟨hjp, hja⟩ := hj
      rw [hpend] at hjp
      rw [hact] at hja
      exact ih j ⟨hjp, Finset.mem_of_mem_erase hja⟩

/-- Witness for C6 (amended) at the freshly constructed device. -/
theorem pending_active_disjoint_witness :
    ¬ ((5 : Fin PLIC_NUM_SOURCES) ∈ freshDev.pending_irqs ∧
       (5 : Fin PLIC_NUM_SOURCES) ∈ freshDev.active_irqs) :=
  pending_active_disjoint freshDev false
    (.init 0 0x300000 1 freshDev
      ((initDevice_def 0 0x300000 1 freshDev).mpr (by decide))) 5

end RiscvVPlic
